import Mathlib

/-!
Verification development for the `convex-solid` reactive query/subscription
bridge of the mulberry repository.

The definitions below are shallow embeddings of the TypeScript source:

* `SolidQuerySubscriptionManager.subscribe` and the unsubscribe closure it
  returns (`src/packages/convex-solid/src/convex-solid.tsx`, lines 165–349)
  become a step function `stepM` on a per-identity manager state `MState`.
  All manager operations are keyed by the serialized query key, and entries
  for distinct keys never interact, so the state models the single entry of
  one Query Identity together with counters of `client.onUpdate` calls
  (channels opened) and `unsubscribe()` calls (teardowns), plus a log of
  callback/error deliveries.
* the `useQueryWithOptions` effect life cycle (same file, lines 423–568)
  becomes a step function `stepQ` on `QueryHookState`; each run of the
  `createEffect` body is an instance with its own `isCancelled` flag, and
  `onCleanup` of the previous run executes before the next run starts.
* the `ConvexQueryClient` cache bridge (`onUpdateQueryKeyHash` and
  `subscribeInner`) becomes `onUpdateQueryKeyHash` over a TanStack query
  state record and `handleCacheEvent` over the bridge's subscription table.
* the router/query integration (`solidRouterWithQueryClient` and
  `createSolidPushableStream`) becomes the wrapped error hooks
  `wrappedMutationOnError` / `wrappedQueryOnError` and a FIFO pushable
  stream consumed by `clientHydrate`.

Thrown JavaScript exceptions are modelled explicitly: a callback that throws
is a callback id satisfying a `throws` predicate, and the handler code paths
that catch are total Lean functions, so "the manager itself never raises" is
reflected by the step functions being total.
-/

/-! ### Subscription Manager (`SolidQuerySubscriptionManager`) -/

/-- One observable effect of the manager: either an observer callback `cb`
was invoked with a pushed value `v`, or an `onError` handler identified by
its channel id was invoked with a `ConvexSubscriptionError`. -/
inductive Delivery where
  | value (cb : Nat) (v : Nat)
  | err (errCh : Nat)
deriving DecidableEq

/-- The per-identity entry of `this.subscriptions`.  `callbacks` is the JS
`Set` in insertion order, `refCount` the (JS number) reference count,
`lastValue` the `subscription.lastValue` field — assigned once, from the
closure-local `lastValue` variable, when the entry literal is built —
and `closureLast` the closure-local `lastValue` variable that the
`onUpdate` push handler assigns.  `creatorErr` is the `onError` channel of
the subscriber whose call created the entry; the push handler closes over
exactly that handler. -/
structure SubEntry where
  callbacks : List Nat
  refCount : Int
  lastValue : Option Nat
  closureLast : Option Nat
  creatorErr : Nat
deriving DecidableEq

/-- Manager state for one Query Identity: the optional subscription entry,
how many remote channels were opened (`client.onUpdate` calls), how many
teardowns ran (`unsubscribe()` on the channel), and the delivery log. -/
structure MState where
  entry : Option SubEntry
  opens : Nat
  teardowns : Nat
  log : List Delivery
deriving DecidableEq

/-- The manager before any subscribe: no entry, no channel, empty log. -/
def initM : MState := ⟨none, 0, 0, []⟩

/-- `Set.add`: appends the callback unless already present (JS sets keep
insertion order and ignore re-insertion). -/
def addCallback (cb : Nat) (l : List Nat) : List Nat :=
  if cb ∈ l then l else l ++ [cb]

/-- Events against the manager for one identity: a subscribe call (carrying
the observer's callback id and its `onError` channel id), a call of the
unsubscribe closure returned for callback `cb`, and a raw push from the
remote channel. -/
inductive MEvent where
  | subscribe (cb errCh : Nat)
  | unsubscribe (cb : Nat)
  | push (v : Nat)
deriving DecidableEq

/-- The fan-out loop body: `callbacks.forEach(cb => try cb(value) catch
onError(...))` where `onError` is the creating subscriber's handler captured
by the push closure. -/
def fanOut (throws : Nat → Bool) (creatorErr v : Nat) (cbs : List Nat) : List Delivery :=
  cbs.map (fun cb => if throws cb then Delivery.err creatorErr else Delivery.value cb v)

/-- One step of `SolidQuerySubscriptionManager`.  `throws cb` says whether
observer `cb`'s callback raises when invoked.

* `subscribe` with no entry: calls `client.onUpdate` (`opens + 1`) and
  stores the entry; the closure-local `lastValue` is still `undefined` when
  the entry literal is built, so `lastValue := none`.  The replay check
  `subscription.lastValue !== undefined` then finds nothing.
* `subscribe` with an entry: `callbacks.add`, `refCount++`, then the replay
  check on the stored `lastValue`; a replay that throws reports to the
  current subscriber's own `onError`.
* `unsubscribe`: looks the entry up; deletes the callback and decrements
  `refCount`; at exactly zero it tears the channel down and deletes the
  entry.
* `push`: assigns the closure-local `lastValue` (not the entry field!) and
  fans the value out to every current callback. -/
def stepM (throws : Nat → Bool) (s : MState) : MEvent → MState
  | .subscribe cb errCh =>
    match s.entry with
    | none =>
        { s with entry := some ⟨[cb], 1, none, none, errCh⟩, opens := s.opens + 1 }
    | some e =>
        let e' : SubEntry :=
          { e with callbacks := addCallback cb e.callbacks, refCount := e.refCount + 1 }
        match e.lastValue with
        | none => { s with entry := some e' }
        | some v =>
            if throws cb then { s with entry := some e', log := s.log ++ [.err errCh] }
            else { s with entry := some e', log := s.log ++ [.value cb v] }
  | .unsubscribe cb =>
    match s.entry with
    | none => s
    | some e =>
        let cbs' := e.callbacks.erase cb
        let rc' := e.refCount - 1
        if rc' = 0 then
          { s with entry := none, teardowns := s.teardowns + 1 }
        else
          { s with entry := some { e with callbacks := cbs', refCount := rc' } }
  | .push v =>
    match s.entry with
    | none => s
    | some e =>
        { s with entry := some { e with closureLast := some v },
                 log := s.log ++ fanOut throws e.creatorErr v e.callbacks }

/-- Run a sequence of manager events from the empty manager. -/
def runM (throws : Nat → Bool) (evs : List MEvent) : MState :=
  evs.foldl (stepM throws) initM

/-- The event trace of claim C1: `N` subscribes (observer `cb` using error
channel `cb`) followed by one call of each returned unsubscribe closure, in
the order given by `order`. -/
def subUnsubTrace (cbs order : List Nat) : List MEvent :=
  cbs.map (fun cb => MEvent.subscribe cb cb) ++ order.map MEvent.unsubscribe

/-! ### Query binding (`useQueryWithOptions`) -/

/-- State of one `useQueryWithOptions` call site: the `data`, `error` and
`isLoading` signals, the set of effect-run instances whose `onCleanup` has
executed (their closure-local `isCancelled` flags are `true`), the currently
active effect instance, the instances holding a live subscription through
the subscription manager, and counters of `client.query` and
`subscriptionManager.subscribe` invocations. -/
structure QueryHookState where
  data : Option Nat
  err : Option Nat
  isLoading : Bool
  cancelled : List Nat
  active : Option Nat
  liveSubs : List Nat
  queryCalls : Nat
  subscribeCalls : Nat
deriving DecidableEq

/-- Hook creation: `createSignal(undefined)` for data and error,
`createSignal(true)` for `isLoading`, no effect run yet. -/
def initQ : QueryHookState := ⟨none, none, true, [], none, [], 0, 0⟩

/-- Asynchronous events in the life of one `useQueryWithOptions` call site.
`runEffect i enabled` is a (re)run of the single `createEffect` body as
instance `i` — Solid executes the previous run's `onCleanup` first —
reading `enabled` from `queryParams()`.  `fetchOk`/`fetchErr i` is the
resolution of instance `i`'s `client.query` promise, `pushVal`/`pushErr i`
a delivery on instance `i`'s subscription, and `dispose` the final scope
teardown. -/
inductive QEvent where
  | runEffect (i : Nat) (enabled : Bool)
  | fetchOk (i : Nat) (v : Nat)
  | fetchErr (i : Nat) (e : Nat)
  | pushVal (i : Nat) (v : Nat)
  | pushErr (i : Nat) (e : Nat)
  | dispose
deriving DecidableEq

/-- The `onCleanup` callback of the active effect instance: set its
`isCancelled` flag and call its `unsubscribe?.()` (each effect run holds at
most one subscription, so its entry leaves `liveSubs`). -/
def cleanupPrev (s : QueryHookState) : QueryHookState :=
  match s.active with
  | none => s
  | some j =>
      { s with cancelled := j :: s.cancelled,
               liveSubs := s.liveSubs.filter (fun k => k ≠ j),
               active := none }

/-- One step of the `useQueryWithOptions` life cycle.

* `runEffect`: previous `onCleanup` runs first; with `enabled = false` the
  effect sets `isLoading` to `false` and returns without contacting the
  remote store; otherwise `executeQuery` starts: `setIsLoading(true)`,
  `setError(undefined)` and one `client.query` call.
* `fetchOk`: guarded by `if (!isCancelled)`; stores the result, clears
  loading, then registers the real-time subscription.
* `fetchErr`: guarded by `if (!isCancelled)`; stores the wrapped error and
  clears loading.
* `pushVal`: the subscription callback, guarded by `if (!isCancelled)`;
  `setData(newValue)` and `setError(undefined)` in one batch.
* `pushErr`: the subscription `onError`, guarded by `if (!isCancelled)`. -/
def stepQ (s : QueryHookState) : QEvent → QueryHookState
  | .runEffect i enabled =>
      let s1 := cleanupPrev s
      if enabled then
        { s1 with active := some i, isLoading := true, err := none,
                  queryCalls := s1.queryCalls + 1 }
      else
        { s1 with active := some i, isLoading := false }
  | .fetchOk i v =>
      if i ∈ s.cancelled then s
      else { s with data := some v, isLoading := false,
                    subscribeCalls := s.subscribeCalls + 1, liveSubs := i :: s.liveSubs }
  | .fetchErr i e =>
      if i ∈ s.cancelled then s
      else { s with err := some e, isLoading := false }
  | .pushVal i v =>
      if i ∈ s.cancelled then s
      else if i ∈ s.liveSubs then { s with data := some v, err := none } else s
  | .pushErr i e =>
      if i ∈ s.cancelled then s
      else if i ∈ s.liveSubs then { s with err := some e } else s
  | .dispose => cleanupPrev s

/-- Run a sequence of binding events from the freshly created hook. -/
def runQ (evs : List QEvent) : QueryHookState :=
  evs.foldl stepQ initQ

/-- The UI-visible part of the binding state: `(data(), error(), isLoading())`. -/
def visibleQ (s : QueryHookState) : Option Nat × Option Nat × Bool :=
  (s.data, s.err, s.isLoading)

/-- `isSuccess` of `useQueryWithOptions`:
`!isLoading() && !error() && data() !== undefined`. -/
def queryIsSuccess (s : QueryHookState) : Bool :=
  !s.isLoading && s.err.isNone && s.data.isSome

/-- `isError` of `useQueryWithOptions`:
`!isLoading() && error() !== undefined`. -/
def queryIsError (s : QueryHookState) : Bool :=
  !s.isLoading && s.err.isSome

/-- The `data` / `error` / `isLoading` signal trio of `useMutation`
(`isLoading` starts `false` there, but the derived flags read any state). -/
structure MutationHookState where
  data : Option Nat
  err : Option Nat
  isLoading : Bool
deriving DecidableEq

/-- `isSuccess` of `useMutation`:
`!isLoading() && !error() && data() !== undefined`. -/
def mutationIsSuccess (s : MutationHookState) : Bool :=
  !s.isLoading && s.err.isNone && s.data.isSome

/-- `isError` of `useMutation`: `!isLoading() && error() !== undefined`. -/
def mutationIsError (s : MutationHookState) : Bool :=
  !s.isLoading && s.err.isSome

/-- The `data` / `error` / `isLoading` signal trio of `useAction`. -/
structure ActionHookState where
  data : Option Nat
  err : Option Nat
  isLoading : Bool
deriving DecidableEq

/-- `isSuccess` of `useAction`:
`!isLoading() && !error() && data() !== undefined`. -/
def actionIsSuccess (s : ActionHookState) : Bool :=
  !s.isLoading && s.err.isNone && s.data.isSome

/-- `isError` of `useAction`: `!isLoading() && error() !== undefined`. -/
def actionIsError (s : ActionHookState) : Bool :=
  !s.isLoading && s.err.isSome

/-! ### Query cache bridge (`ConvexQueryClient`) -/

/-- A thrown JavaScript value as classified by the bridge's error wrapping:
already a `ConvexError` (message and code), some other `Error` (message), or
a non-`Error` value (its string form). -/
inductive JSErr where
  | convex (msg code : String)
  | plainErr (msg : String)
  | nonError (s : String)
deriving DecidableEq

/-- The wrapping in `onUpdateQueryKeyHash`'s error branch:
`error instanceof ConvexError ? error : error instanceof Error ? new
ConvexError(msg, 'SUBSCRIPTION_ERROR', ...) : new ConvexError(String(error),
'UNKNOWN_SUBSCRIPTION_ERROR')`. -/
def wrapSubscriptionError : JSErr → JSErr
  | .convex m c => .convex m c
  | .plainErr m => .convex m "SUBSCRIPTION_ERROR"
  | .nonError s => .convex s "UNKNOWN_SUBSCRIPTION_ERROR"

/-- TanStack query `status`. -/
inductive QStatus where
  | pending | success | error
deriving DecidableEq

/-- TanStack query `fetchStatus`. -/
inductive FetchStatus where
  | fetching | paused | idle
deriving DecidableEq

/-- The fields of a TanStack `Query.state` the bridge reads or writes. -/
structure TQState where
  data : Option Nat
  errorVal : Option JSErr
  errorUpdateCount : Nat
  errorUpdatedAt : Nat
  fetchFailureCount : Nat
  fetchFailureReason : Option JSErr
  fetchStatus : FetchStatus
  status : QStatus
deriving DecidableEq

/-- `queryClient.setQueryData(queryKey, prev => prev === undefined ?
undefined : value)`: the updater returning `undefined` signals TanStack not
to create or change an entry, otherwise the entry's data is replaced. -/
def setQueryDataUpdater (qs : TQState) (v : Nat) : TQState :=
  match qs.data with
  | none => qs
  | some _ => { qs with data := some v }

/-- `ConvexQueryClient.onUpdateQueryKeyHash`, given the recorded
subscription's `watch.localQueryResult()` outcome (`none` when no
subscription is recorded for the hash — an internal error that throws), the
cache's entry for the hash, and the current time for `errorUpdatedAt`.
On a push-error the entry's error state is written by a partial `setState`
(TanStack merges the listed fields into the existing state), on success the
data is replaced through `setQueryDataUpdater`. -/
def onUpdateQueryKeyHash (sub : Option (Except JSErr Nat))
    (q : Option TQState) (now : Nat) : Except String (Option TQState) :=
  match sub with
  | none => .error "Internal ConvexQueryClient error: onUpdateQueryKeyHash called for unknown hash"
  | some localResult =>
    match q with
    | none => .ok none
    | some qs =>
      match localResult with
      | .ok v => .ok (some (setQueryDataUpdater qs v))
      | .error e =>
          let convexError := wrapSubscriptionError e
          .ok (some { qs with
                errorVal := some convexError,
                errorUpdateCount := qs.errorUpdateCount + 1,
                errorUpdatedAt := now,
                fetchFailureCount := qs.fetchFailureCount + 1,
                fetchFailureReason := some convexError,
                fetchStatus := .idle,
                status := .error })

/-- One element of a TanStack query key, enough to express the
`'convexQuery'` / `'convexAction'` / `'skip'` markers the bridge tests. -/
inductive KeyAtom where
  | str (s : String)
  | other (s : String)
deriving DecidableEq

/-- A TanStack query key as the bridge sees it. -/
abbrev QueryKeyM := List KeyAtom

/-- `isConvexQuery`: `queryKey.length >= 2 && queryKey[0] === 'convexQuery'`. -/
def isConvexQueryKey (k : QueryKeyM) : Bool :=
  decide (2 ≤ k.length) && decide (k.head? = some (.str "convexQuery"))

/-- `isConvexSkipped`: `queryKey.length >= 2 && ['convexQuery',
'convexAction'].includes(queryKey[0]) && queryKey[2] === 'skip'`. -/
def isConvexSkippedKey (k : QueryKeyM) : Bool :=
  decide (2 ≤ k.length)
    && (decide (k.head? = some (.str "convexQuery"))
        || decide (k.head? = some (.str "convexAction")))
    && decide (k[2]? = some (.str "skip"))

/-- A record in `ConvexQueryClient.subscriptions`: the stored query key and
an id naming the `unsubscribe` closure the record holds. -/
structure BridgeSub where
  key : QueryKeyM
  id : Nat
deriving DecidableEq

/-- The bridge's mutable table `this.subscriptions` (a JS object keyed by
query hash, so keys are unique) together with the ordered list of
`subscription.unsubscribe()` invocations made so far. -/
structure BridgeState where
  subs : List (String × BridgeSub)
  torn : List Nat
deriving DecidableEq

/-- TanStack `QueryCache` event kinds handled by `subscribeInner`. -/
inductive CacheEventType where
  | removed | added | observerAdded | observerRemoved
  | observerResultsUpdated | updated | observerOptionsUpdated
deriving DecidableEq

/-- The part of a `QueryCache` event `subscribeInner` reads. -/
structure CacheEvent where
  type : CacheEventType
  queryKey : QueryKeyM
  queryHash : String
deriving DecidableEq

/-- `this.subscriptions[hash]` lookup. -/
def lookupSub (subs : List (String × BridgeSub)) (h : String) : Option BridgeSub :=
  (subs.find? (fun p => p.1 = h)).map Prod.snd

/-- The `queryCache.subscribe` listener installed by
`ConvexQueryClient.subscribeInner`: non-Convex and skipped keys are ignored;
a `removed` event invokes the recorded subscription's `unsubscribe()` and
deletes the record (the `delete` sits in a `finally`, so it runs even when
the teardown throws); an `added` event records a fresh subscription
(`freshId` names its unsubscribe closure); the remaining event kinds do
nothing. -/
def handleCacheEvent (s : BridgeState) (ev : CacheEvent) (freshId : Nat) : BridgeState :=
  if ¬ isConvexQueryKey ev.queryKey then s
  else if isConvexSkippedKey ev.queryKey then s
  else
    match ev.type with
    | .removed =>
        match lookupSub s.subs ev.queryHash with
        | some sub =>
            { subs := s.subs.filter (fun p => p.1 ≠ ev.queryHash),
              torn := s.torn ++ [sub.id] }
        | none => s
    | .added =>
        { s with subs := s.subs.filter (fun p => p.1 ≠ ev.queryHash)
                  ++ [(ev.queryHash, ⟨ev.queryKey, freshId⟩)] }
    | _ => s

/-! ### Redirect interception (`solidRouterWithQueryClient`) -/

/-- A failure thrown inside a query or mutation: either the distinguished
redirect signal (carrying its target location) or an ordinary error. -/
inductive RouterErr where
  | redirect (target : String)
  | plain (msg : String)
deriving DecidableEq

/-- `isRedirect` from `@tanstack/router-core`. -/
def isRedirectErr : RouterErr → Bool
  | .redirect _ => true
  | .plain _ => false

/-- The observable state of the router/query integration: the ordered list
of `router.navigate` invocations (by resolved target) and the invocations
of the original mutation-cache and query-cache `onError` hooks. -/
structure RouterState where
  navCalls : List String
  mutOnErrorCalls : List RouterErr
  queryOnErrorCalls : List RouterErr
deriving DecidableEq

/-- `createRedirectHandler`: on a redirect it resolves the target and calls
`router.navigate`, returning a truthy result; on anything else it returns
`null`. -/
def createRedirectHandler (r : RouterState) : RouterErr → RouterState × Bool
  | .redirect t => ({ r with navCalls := r.navCalls ++ [t] }, true)
  | .plain _ => (r, false)

/-- The wrapped mutation-cache `onError`: if the redirect handler handled
the failure its (truthy) result is returned and the original hook is
skipped, otherwise the original hook receives the failure unchanged. -/
def wrappedMutationOnError (r : RouterState) (e : RouterErr) : RouterState :=
  let h := createRedirectHandler r e
  if h.2 then h.1
  else { h.1 with mutOnErrorCalls := h.1.mutOnErrorCalls ++ [e] }

/-- The wrapped query-cache `onError`, same shape as the mutation one. -/
def wrappedQueryOnError (r : RouterState) (e : RouterErr) : RouterState :=
  let h := createRedirectHandler r e
  if h.2 then h.1
  else { h.1 with queryOnErrorCalls := h.1.queryOnErrorCalls ++ [e] }

/-! ### SSR hydration stream -/

/-- A dehydrated chunk: the serialized cache entries (key, value) it carries. -/
abbrev DehydratedChunk := List (String × Nat)

/-- The client query cache as a key/value table (unique keys). -/
abbrev CacheMap := List (String × Nat)

/-- Write one serialized entry into the cache: replace the entry when the
key exists, append it otherwise. -/
def setCacheEntry (c : CacheMap) (k : String) (v : Nat) : CacheMap :=
  if c.any (fun p => p.1 = k) then c.map (fun p => if p.1 = k then (k, v) else p)
  else c ++ [(k, v)]

/-- `queryHydrate(queryClient, chunk)`: apply every entry of the chunk to
the cache. -/
def queryHydrateChunk (c : CacheMap) (ch : DehydratedChunk) : CacheMap :=
  ch.foldl (fun acc kv => setCacheEntry acc kv.1 kv.2) c

/-- `createSolidPushableStream`'s state: the chunks enqueued so far in FIFO
order and the `_isClosed` flag (`_isStarted` is set synchronously by the
`ReadableStream` constructor, so it is always `true` here). -/
structure PushStream where
  chunks : List DehydratedChunk
  closed : Bool
deriving DecidableEq

/-- The stream right after `createSolidPushableStream()`. -/
def emptyStream : PushStream := ⟨[], false⟩

/-- `enqueue`: appends the chunk unless the stream is closed. -/
def streamEnqueue (s : PushStream) (c : DehydratedChunk) : PushStream :=
  if s.closed then s else { s with chunks := s.chunks ++ [c] }

/-- `close`: marks the stream closed. -/
def streamClose (s : PushStream) : PushStream :=
  { s with closed := true }

/-- The stream produced by a sequence of server-side `enqueue` calls. -/
def streamFromEnqueues (cs : List DehydratedChunk) : PushStream :=
  cs.foldl streamEnqueue emptyStream

/-- The recursive `handleStreamChunk` loop of `router.options.hydrate`:
while `isHydrating` it applies the chunk it read and reads the next one;
the flag is never cleared in the source, so every delivered chunk is
applied in arrival order. -/
def handleStreamChunks (isHydrating : Bool) (cache : CacheMap) :
    List DehydratedChunk → CacheMap
  | [] => cache
  | ch :: rest =>
      if isHydrating then handleStreamChunks isHydrating (queryHydrateChunk cache ch) rest
      else cache

/-- The successive cache states while consuming the chunk list: the head is
the state before any chunk, and each chunk appends the state after it. -/
def hydrateStatesAux (cache : CacheMap) : List DehydratedChunk → List CacheMap
  | [] => [cache]
  | ch :: rest => cache :: hydrateStatesAux (queryHydrateChunk cache ch) rest

/-- Client-side hydration (`router.options.hydrate`): `queryHydrate` with
the initial snapshot first, then the stream chunks one at a time; the
result lists the cache state after the snapshot and after each chunk. -/
def clientHydrate (snapshot : DehydratedChunk) (chunks : List DehydratedChunk)
    (c0 : CacheMap) : List CacheMap :=
  hydrateStatesAux (queryHydrateChunk c0 snapshot) chunks

/-! ### Theorems -/

/-- Claim C7: when the cache bridge processes a push whose local query
result computation throws, it sets the cache entry's error state (error
value and `status`), increments `errorUpdateCount` and `fetchFailureCount`,
and leaves the stored data — the last-known value — unchanged. -/
theorem push_error_sets_error_and_keeps_data (qs : TQState) (e : JSErr) (now : Nat) :
    ∃ qs', onUpdateQueryKeyHash (some (Except.error e)) (some qs) now = Except.ok (some qs')
      ∧ qs'.errorVal = some (wrapSubscriptionError e)
      ∧ qs'.status = QStatus.error
      ∧ qs'.errorUpdateCount = qs.errorUpdateCount + 1
      ∧ qs'.fetchFailureCount = qs.fetchFailureCount + 1
      ∧ qs'.data = qs.data :=
  ⟨_, rfl, rfl, rfl, rfl, rfl, rfl⟩

/-- Claim C9: a query binding whose effect runs with `enabled = false`
reaches `isLoading = false` and `data = undefined` without any
`client.query` call and without opening any subscription. -/
theorem disabled_query_short_circuits (i : Nat) :
    (runQ [QEvent.runEffect i false]).isLoading = false
    ∧ (runQ [QEvent.runEffect i false]).data = none
    ∧ (runQ [QEvent.runEffect i false]).err = none
    ∧ (runQ [QEvent.runEffect i false]).queryCalls = 0
    ∧ (runQ [QEvent.runEffect i false]).subscribeCalls = 0
    ∧ (runQ [QEvent.runEffect i false]).liveSubs = [] :=
  ⟨rfl, rfl, rfl, rfl, rfl, rfl⟩

/-- Claim C10: in every state of the query, mutation and action bindings,
`isSuccess` and `isError` are mutually exclusive — `isSuccess` needs the
error signal unset and `isError` needs it set. -/
theorem derived_flags_mutually_exclusive
    (sq : QueryHookState) (sm : MutationHookState) (sa : ActionHookState) :
    ¬(queryIsSuccess sq = true ∧ queryIsError sq = true)
    ∧ ¬(mutationIsSuccess sm = true ∧ mutationIsError sm = true)
    ∧ ¬(actionIsSuccess sa = true ∧ actionIsError sa = true) := by
  refine ⟨?_, ?_, ?_⟩ <;> rintro ⟨h1, h2⟩
  · cases he : sq.err <;>
      simp [queryIsSuccess, queryIsError, he] at h1 h2
  · cases he : sm.err <;>
      simp [mutationIsSuccess, mutationIsError, he] at h1 h2
  · cases he : sa.err <;>
      simp [actionIsSuccess, actionIsError, he] at h1 h2

/-- Claim C2 is false of the code: after observer `0` subscribes and the
channel pushes `7`, the late-joining observer `1` is not notified during
its subscribe call.  The push handler assigned the closure-local variable
(`closureLast = some 7`) but `subscription.lastValue` stayed unset, so the
replay check `subscription.lastValue !== undefined` never fires.  The
delivery log ends with only observer `0`'s delivery. -/
theorem replay_on_join_never_fires :
    runM (fun _ => false) [.subscribe 0 10, .push 7, .subscribe 1 11] =
      ⟨some ⟨[0, 1], 2, none, some 7, 10⟩, 1, 0, [.value 0 7]⟩
    ∧ ∀ v : Nat,
        Delivery.value 1 v ∉
          (runM (fun _ => false) [.subscribe 0 10, .push 7, .subscribe 1 11]).log := by
  refine ⟨rfl, ?_⟩
  intro v h
  have hlog : (runM (fun _ => false)
      [.subscribe 0 10, .push 7, .subscribe 1 11]).log = [.value 0 7] := rfl
  rw [hlog] at h
  simp [Delivery.value.injEq] at h

/-- Claim C4's idempotence part is false of the code: two redirecting
failures hitting the wrapped mutation error hook trigger two
`router.navigate` calls — the wrapper performs no deduplication. -/
theorem concurrent_redirects_navigate_twice :
    (wrappedMutationOnError
        (wrappedMutationOnError ⟨[], [], []⟩ (RouterErr.redirect "/a"))
        (RouterErr.redirect "/b")).navCalls = ["/a", "/b"]
    ∧ ((wrappedMutationOnError
        (wrappedMutationOnError ⟨[], [], []⟩ (RouterErr.redirect "/a"))
        (RouterErr.redirect "/b")).navCalls).length ≠ 1 :=
  ⟨rfl, by decide⟩

/-- Claim C4, amended: a redirect failure thrown from a query or mutation
is intercepted by the wrapped error hooks — navigation to its target is
triggered and the original error hook is skipped, so the failure never
reaches that call's UI error state through the hooks — while every
non-redirect failure is passed unchanged to the original hook; each
redirecting call triggers its own `router.navigate` invocation (two
concurrent redirects produce two). -/
theorem redirect_interception (r : RouterState) (t u m : String) :
    wrappedMutationOnError r (.redirect t) = { r with navCalls := r.navCalls ++ [t] }
    ∧ wrappedMutationOnError r (.plain m) =
        { r with mutOnErrorCalls := r.mutOnErrorCalls ++ [.plain m] }
    ∧ wrappedQueryOnError r (.redirect t) = { r with navCalls := r.navCalls ++ [t] }
    ∧ wrappedQueryOnError r (.plain m) =
        { r with queryOnErrorCalls := r.queryOnErrorCalls ++ [.plain m] }
    ∧ (wrappedMutationOnError (wrappedMutationOnError r (.redirect t)) (.redirect u)).navCalls
        = r.navCalls ++ [t] ++ [u] :=
  ⟨rfl, rfl, rfl, rfl, rfl⟩

/-- Claim C6's routing part is false of the code: observer `0` (error
channel `10`) creates the subscription, observer `1` (error channel `11`)
joins, and observer `1`'s callback throws on the push of `5`.  The failure
is reported on channel `10` — the handler captured by the push closure is
the creating subscriber's `onError` — and nothing ever reaches observer
`1`'s own error channel `11`. -/
theorem fanout_error_goes_to_creator :
    (runM (fun cb => cb == 1) [.subscribe 0 10, .subscribe 1 11, .push 5]).log
      = [Delivery.value 0 5, Delivery.err 10]
    ∧ Delivery.err 11 ∉
        (runM (fun cb => cb == 1) [.subscribe 0 10, .subscribe 1 11, .push 5]).log :=
  ⟨rfl, by decide⟩

/-- Claim C6, amended: during one fan-out of a push, a throwing observer
callback is caught and reported via the error handler supplied by the
observer that created the subscription entry (not necessarily the throwing
observer's own), every non-throwing observer in the same fan-out still
receives the pushed value, and the fan-out is a total step — the manager
never raises on observer failure. -/
theorem fanout_isolation (throws : Nat → Bool) (s : MState) (e : SubEntry) (v : Nat)
    (hs : s.entry = some e) :
    (stepM throws s (.push v)).log = s.log ++ fanOut throws e.creatorErr v e.callbacks
    ∧ (∀ cb ∈ e.callbacks, throws cb = false →
        Delivery.value cb v ∈ (stepM throws s (.push v)).log)
    ∧ (∀ cb ∈ e.callbacks, throws cb = true →
        Delivery.err e.creatorErr ∈ (stepM throws s (.push v)).log) := by
  rcases s with ⟨ent, o, td, lg⟩
  simp only [MState.entry] at hs
  subst hs
  refine ⟨rfl, ?_, ?_⟩
  · intro cb hmem hth
    have : Delivery.value cb v ∈ fanOut throws e.creatorErr v e.callbacks :=
      List.mem_map.2 ⟨cb, hmem, by simp [hth]⟩
    exact List.mem_append.2 (Or.inr this)
  · intro cb hmem hth
    have : Delivery.err e.creatorErr ∈ fanOut throws e.creatorErr v e.callbacks :=
      List.mem_map.2 ⟨cb, hmem, by simp [hth]⟩
    exact List.mem_append.2 (Or.inr this)

/-- Witness for `fanout_isolation` at a concrete manager state: entry with
observers `0` and `1`, creator error channel `10`, observer `1` throwing on
the push of `5`. -/
theorem fanout_isolation_witness :
    ((⟨some ⟨[0, 1], 2, none, none, 10⟩, 1, 0, []⟩ : MState).entry
        = some (⟨[0, 1], 2, none, none, 10⟩ : SubEntry))
    ∧ ((stepM (fun cb => cb == 1) ⟨some ⟨[0, 1], 2, none, none, 10⟩, 1, 0, []⟩ (.push 5)).log
          = [] ++ fanOut (fun cb => cb == 1) 10 5 [0, 1]
      ∧ (∀ cb ∈ [0, 1], (fun cb => cb == 1) cb = false →
          Delivery.value cb 5 ∈
            (stepM (fun cb => cb == 1) ⟨some ⟨[0, 1], 2, none, none, 10⟩, 1, 0, []⟩ (.push 5)).log)
      ∧ (∀ cb ∈ [0, 1], (fun cb => cb == 1) cb = true →
          Delivery.err 10 ∈
            (stepM (fun cb => cb == 1) ⟨some ⟨[0, 1], 2, none, none, 10⟩, 1, 0, []⟩ (.push 5)).log)) :=
  ⟨rfl, fanout_isolation (fun cb => cb == 1) ⟨some ⟨[0, 1], 2, none, none, 10⟩, 1, 0, []⟩
    ⟨[0, 1], 2, none, none, 10⟩ 5 rfl⟩

/-- Deleting a hash from the subscription table makes its lookup fail. -/
theorem lookupSub_filter_self (subs : List (String × BridgeSub)) (h : String) :
    lookupSub (subs.filter (fun p => p.1 ≠ h)) h = none := by
  unfold lookupSub
  rw [List.find?_eq_none.2]
  · rfl
  · intro x hx
    have hne := (List.mem_filter.mp hx).2
    simp only [ne_eq, decide_eq_true_eq] at hne ⊢
    exact hne

/-- Claim C8: when the owning query cache emits a `removed` event for a
Convex (non-skipped) query key with a recorded live subscription, the
bridge invokes that subscription's `unsubscribe` exactly once and deletes
its record, coupling the cache-entry and remote-subscription lifetimes. -/
theorem removed_event_unsubscribes
    (s : BridgeState) (ev : CacheEvent) (sub : BridgeSub) (fid : Nat)
    (hq : isConvexQueryKey ev.queryKey = true)
    (hsk : isConvexSkippedKey ev.queryKey = false)
    (hty : ev.type = CacheEventType.removed)
    (hsub : lookupSub s.subs ev.queryHash = some sub) :
    (handleCacheEvent s ev fid).torn = s.torn ++ [sub.id]
    ∧ lookupSub (handleCacheEvent s ev fid).subs ev.queryHash = none := by
  rcases ev with ⟨ty, k, h⟩
  simp only at hq hsk hty hsub
  subst hty
  unfold handleCacheEvent
  simp only [hq, hsk, hsub, Bool.not_true, Bool.false_eq_true, not_false_eq_true,
    if_true, if_false, Bool.not_eq_true, reduceIte]
  exact ⟨rfl, lookupSub_filter_self s.subs h⟩

/-- Witness for `removed_event_unsubscribes`: a table holding one live
subscription (id `42`) for hash `"h1"` receiving the `removed` event. -/
theorem removed_event_unsubscribes_witness :
    (isConvexQueryKey [KeyAtom.str "convexQuery", KeyAtom.other "args"] = true
      ∧ isConvexSkippedKey [KeyAtom.str "convexQuery", KeyAtom.other "args"] = false
      ∧ (⟨CacheEventType.removed, [KeyAtom.str "convexQuery", KeyAtom.other "args"], "h1"⟩ :
            CacheEvent).type = CacheEventType.removed
      ∧ lookupSub [("h1", ⟨[KeyAtom.str "convexQuery", KeyAtom.other "args"], 42⟩)] "h1"
          = some ⟨[KeyAtom.str "convexQuery", KeyAtom.other "args"], 42⟩)
    ∧ ((handleCacheEvent ⟨[("h1", ⟨[KeyAtom.str "convexQuery", KeyAtom.other "args"], 42⟩)], []⟩
          ⟨CacheEventType.removed, [KeyAtom.str "convexQuery", KeyAtom.other "args"], "h1"⟩ 0).torn
        = [] ++ [(⟨[KeyAtom.str "convexQuery", KeyAtom.other "args"], 42⟩ : BridgeSub).id]
      ∧ lookupSub (handleCacheEvent ⟨[("h1", ⟨[KeyAtom.str "convexQuery", KeyAtom.other "args"], 42⟩)], []⟩
          ⟨CacheEventType.removed, [KeyAtom.str "convexQuery", KeyAtom.other "args"], "h1"⟩ 0).subs "h1"
        = none) :=
  ⟨⟨by decide, by decide, rfl, rfl⟩,
    removed_event_unsubscribes
      ⟨[("h1", ⟨[KeyAtom.str "convexQuery", KeyAtom.other "args"], 42⟩)], []⟩
      ⟨CacheEventType.removed, [KeyAtom.str "convexQuery", KeyAtom.other "args"], "h1"⟩
      ⟨[KeyAtom.str "convexQuery", KeyAtom.other "args"], 42⟩ 0
      (by decide) (by decide) rfl rfl⟩

/-- An effect instance whose `isCancelled` flag is set stays cancelled
under every later event. -/
theorem stepQ_cancelled_mono (s : QueryHookState) (ev : QEvent) (i : Nat)
    (hi : i ∈ s.cancelled) : i ∈ (stepQ s ev).cancelled := by
  cases ev with
  | runEffect j en =>
      cases en <;> cases h' : s.active <;>
        simp only [stepQ, cleanupPrev, h', if_true, if_false, Bool.false_eq_true] <;>
        simp [hi]
  | fetchOk j v => by_cases h' : j ∈ s.cancelled <;> simp only [stepQ] <;>
      [rw [if_pos h']; rw [if_neg h']] <;> exact hi
  | fetchErr j e => by_cases h' : j ∈ s.cancelled <;> simp only [stepQ] <;>
      [rw [if_pos h']; rw [if_neg h']] <;> exact hi
  | pushVal j v => by_cases h' : j ∈ s.cancelled <;> simp only [stepQ] <;>
      [rw [if_pos h']; rw [if_neg h']] <;> [exact hi; split <;> exact hi]
  | pushErr j e => by_cases h' : j ∈ s.cancelled <;> simp only [stepQ] <;>
      [rw [if_pos h']; rw [if_neg h']] <;> [exact hi; split <;> exact hi]
  | dispose => cases h' : s.active <;>
      simp only [stepQ, cleanupPrev, h'] <;> simp [hi]

/-- A resolution, rejection or push belonging to a cancelled effect
instance leaves the UI-visible binding state untouched. -/
theorem stepQ_discards_cancelled (s : QueryHookState) (i v : Nat)
    (hi : i ∈ s.cancelled) :
    visibleQ (stepQ s (.fetchOk i v)) = visibleQ s
    ∧ visibleQ (stepQ s (.fetchErr i v)) = visibleQ s
    ∧ visibleQ (stepQ s (.pushVal i v)) = visibleQ s
    ∧ visibleQ (stepQ s (.pushErr i v)) = visibleQ s := by
  refine ⟨?_, ?_, ?_, ?_⟩ <;> simp only [stepQ] <;> rw [if_pos hi]

/-- Claim C3: when the query binding's effect re-runs as a new request
instance `b`, the previous instance `a`'s cleanup executes first — `a` is
cancelled and its subscription is removed; a cancelled instance stays
cancelled forever; any result, error or push of a cancelled instance is
discarded; and in the concrete race where `a`'s fetch resolves after `b`'s,
the final data reflects only request `b`. -/
theorem last_request_wins (a b va vb : Nat) (hab : a ≠ b)
    (s : QueryHookState) (hact : s.active = some a) :
    (a ∈ (stepQ s (.runEffect b true)).cancelled
      ∧ a ∉ (stepQ s (.runEffect b true)).liveSubs)
    ∧ (∀ (s' : QueryHookState) (ev : QEvent) (i : Nat),
        i ∈ s'.cancelled → i ∈ (stepQ s' ev).cancelled)
    ∧ (∀ (s' : QueryHookState) (i v : Nat), i ∈ s'.cancelled →
        visibleQ (stepQ s' (.fetchOk i v)) = visibleQ s'
        ∧ visibleQ (stepQ s' (.fetchErr i v)) = visibleQ s'
        ∧ visibleQ (stepQ s' (.pushVal i v)) = visibleQ s'
        ∧ visibleQ (stepQ s' (.pushErr i v)) = visibleQ s')
    ∧ (runQ [.runEffect a true, .runEffect b true, .fetchOk b vb, .fetchOk a va]).data
        = some vb
    ∧ (runQ [.runEffect a true, .runEffect b true, .fetchOk b vb, .fetchOk a va]).err
        = none := by
  have hba : ¬ (b = a) := fun hh => hab hh.symm
  refine ⟨⟨?_, ?_⟩, fun s' ev i hi => stepQ_cancelled_mono s' ev i hi,
    fun s' i v hi => stepQ_discards_cancelled s' i v hi, ?_, ?_⟩
  · simp [stepQ, cleanupPrev, hact]
  · simp [stepQ, cleanupPrev, hact, List.mem_filter]
  · simp [runQ, stepQ, cleanupPrev, initQ, hba]
  · simp [runQ, stepQ, cleanupPrev, initQ, hba]

/-- Witness for `last_request_wins`: instances `0` and `1`, values `3` and
`4`, from the state where instance `0` is the active request. -/
theorem last_request_wins_witness :
    ((0 : Nat) ≠ 1
      ∧ (⟨none, none, true, [], some 0, [], 1, 0⟩ : QueryHookState).active = some 0)
    ∧ ((0 ∈ (stepQ ⟨none, none, true, [], some 0, [], 1, 0⟩ (.runEffect 1 true)).cancelled
        ∧ 0 ∉ (stepQ ⟨none, none, true, [], some 0, [], 1, 0⟩ (.runEffect 1 true)).liveSubs)
      ∧ (∀ (s' : QueryHookState) (ev : QEvent) (i : Nat),
          i ∈ s'.cancelled → i ∈ (stepQ s' ev).cancelled)
      ∧ (∀ (s' : QueryHookState) (i v : Nat), i ∈ s'.cancelled →
          visibleQ (stepQ s' (.fetchOk i v)) = visibleQ s'
          ∧ visibleQ (stepQ s' (.fetchErr i v)) = visibleQ s'
          ∧ visibleQ (stepQ s' (.pushVal i v)) = visibleQ s'
          ∧ visibleQ (stepQ s' (.pushErr i v)) = visibleQ s')
      ∧ (runQ [.runEffect 0 true, .runEffect 1 true, .fetchOk 1 4, .fetchOk 0 3]).data
          = some 4
      ∧ (runQ [.runEffect 0 true, .runEffect 1 true, .fetchOk 1 4, .fetchOk 0 3]).err
          = none) :=
  ⟨⟨by decide, rfl⟩,
    last_request_wins 0 1 3 4 (by decide) ⟨none, none, true, [], some 0, [], 1, 0⟩ rfl⟩

/-- Server-side enqueues on an open pushable stream accumulate in FIFO
order. -/
theorem streamEnqueue_foldl (cs : List DehydratedChunk) (l : List DehydratedChunk) :
    cs.foldl streamEnqueue ⟨l, false⟩ = ⟨l ++ cs, false⟩ := by
  induction cs generalizing l with
  | nil => simp
  | cons c rest ih =>
      show rest.foldl streamEnqueue (streamEnqueue ⟨l, false⟩ c) = _
      rw [show streamEnqueue ⟨l, false⟩ c = ⟨l ++ [c], false⟩ from rfl, ih]
      simp

/-- The `k`-th recorded hydration state is the starting cache with the
first `k` chunks applied, in order. -/
theorem hydrateStatesAux_get (chunks : List DehydratedChunk) (cache : CacheMap)
    (k : Nat) (hk : k ≤ chunks.length) :
    (hydrateStatesAux cache chunks)[k]? =
      some (List.foldl queryHydrateChunk cache (chunks.take k)) := by
  induction chunks generalizing cache k with
  | nil =>
      have : k = 0 := Nat.le_zero.mp hk
      subst this
      rfl
  | cons ch rest ih =>
      cases k with
      | zero => simp [hydrateStatesAux]
      | succ k' =>
          have hk' : k' ≤ rest.length := Nat.succ_le_succ_iff.mp hk
          simpa [hydrateStatesAux] using ih (queryHydrateChunk cache ch) k' hk'

/-- The client's recursive stream loop applies the chunks as a left fold. -/
theorem handleStreamChunks_eq_foldl (chunks : List DehydratedChunk) (cache : CacheMap) :
    handleStreamChunks true cache chunks = List.foldl queryHydrateChunk cache chunks := by
  induction chunks generalizing cache with
  | nil => rfl
  | cons ch rest ih => simpa [handleStreamChunks] using ih (queryHydrateChunk cache ch)

/-- Claim C5: client hydration applies the dehydrated snapshot first, then
the stream chunks one at a time in exactly the order they were enqueued
server-side — the pushable stream is FIFO, the state after `k` chunks is
the snapshot state folded over chunks `1..k`, and no chunk is skipped or
reordered while hydration is active. -/
theorem hydration_applies_chunks_in_order
    (cs : List DehydratedChunk) (snapshot : DehydratedChunk) (c0 : CacheMap)
    (k : Nat) (hk : k ≤ cs.length) :
    (streamFromEnqueues cs).chunks = cs
    ∧ (clientHydrate snapshot (streamFromEnqueues cs).chunks c0)[0]? =
        some (queryHydrateChunk c0 snapshot)
    ∧ (clientHydrate snapshot (streamFromEnqueues cs).chunks c0)[k]? =
        some (List.foldl queryHydrateChunk (queryHydrateChunk c0 snapshot) (cs.take k))
    ∧ handleStreamChunks true (queryHydrateChunk c0 snapshot) cs =
        List.foldl queryHydrateChunk (queryHydrateChunk c0 snapshot) cs := by
  have hst : streamFromEnqueues cs = ⟨cs, false⟩ := by
    rw [streamFromEnqueues, show emptyStream = ⟨[], false⟩ from rfl, streamEnqueue_foldl]
    simp
  refine ⟨by rw [hst], ?_, ?_, handleStreamChunks_eq_foldl cs _⟩
  · rw [hst]
    simpa using hydrateStatesAux_get cs (queryHydrateChunk c0 snapshot) 0 (Nat.zero_le _)
  · rw [hst]
    exact hydrateStatesAux_get cs (queryHydrateChunk c0 snapshot) k hk

/-- Witness for `hydration_applies_chunks_in_order`: snapshot plus two
streamed chunks, inspected after the first chunk. -/
theorem hydration_applies_chunks_in_order_witness :
    ((1 : Nat) ≤ ([[("a", 1)], [("b", 2)]] : List DehydratedChunk).length)
    ∧ ((streamFromEnqueues [[("a", 1)], [("b", 2)]]).chunks = [[("a", 1)], [("b", 2)]]
      ∧ (clientHydrate [("s", 0)] (streamFromEnqueues [[("a", 1)], [("b", 2)]]).chunks [])[0]? =
          some (queryHydrateChunk [] [("s", 0)])
      ∧ (clientHydrate [("s", 0)] (streamFromEnqueues [[("a", 1)], [("b", 2)]]).chunks [])[1]? =
          some (List.foldl queryHydrateChunk (queryHydrateChunk [] [("s", 0)])
            (([[("a", 1)], [("b", 2)]] : List DehydratedChunk).take 1))
      ∧ handleStreamChunks true (queryHydrateChunk [] [("s", 0)]) [[("a", 1)], [("b", 2)]] =
          List.foldl queryHydrateChunk (queryHydrateChunk [] [("s", 0)])
            [[("a", 1)], [("b", 2)]]) :=
  ⟨by decide, hydration_applies_chunks_in_order [[("a", 1)], [("b", 2)]] [("s", 0)] [] 1
    (by decide)⟩

/-- Channel accounting invariant: the number of opened channels equals the
number of teardowns plus one iff an entry is live — so at most one channel
is ever live for the identity. -/
def chanInv (s : MState) : Prop :=
  s.opens = s.teardowns + (if s.entry.isSome then 1 else 0)

/-- Every manager step preserves the channel accounting invariant. -/
theorem stepM_chanInv (throws : Nat → Bool) (s : MState) (ev : MEvent)
    (h : chanInv s) : chanInv (stepM throws s ev) := by
  cases ev with
  | subscribe cb errCh =>
      cases he : s.entry with
      | none =>
          simp [chanInv, he] at h
          simp [chanInv, stepM, he, h]
      | some e =>
          simp [chanInv, he] at h
          cases hlv : e.lastValue with
          | none => simpa [chanInv, stepM, he, hlv] using h
          | some v =>
              by_cases ht : throws cb = true <;>
                simp [chanInv, stepM, he, hlv, ht] <;> exact h
  | unsubscribe cb =>
      cases he : s.entry with
      | none => simpa [chanInv, stepM, he] using h
      | some e =>
          simp [chanInv, he] at h
          by_cases hz : e.refCount - 1 = 0 <;>
            simp [chanInv, stepM, he, hz] <;> omega
  | push v =>
      cases he : s.entry with
      | none => simpa [chanInv, stepM, he] using h
      | some e => simpa [chanInv, stepM, he] using h

/-- The invariant holds along every run from the fresh manager. -/
theorem runM_chanInv (throws : Nat → Bool) (evs : List MEvent) :
    chanInv (runM throws evs) := by
  rw [runM]
  suffices h : ∀ s, chanInv s → chanInv (evs.foldl (stepM throws) s) from
    h initM (by simp [chanInv, initM])
  induction evs with
  | nil => exact fun s hs => hs
  | cons e rest ih => exact fun s hs => ih _ (stepM_chanInv throws s e hs)

/-- Folding further subscribes over a state with a live entry whose
`lastValue` is unset only grows the callback set and the reference count;
no new channel is opened and nothing is delivered. -/
theorem foldl_subscribe_grows (throws : Nat → Bool) (more : List Nat) :
    ∀ (s : MState) (e : SubEntry), s.entry = some e → e.lastValue = none →
      (e.callbacks ++ more).Nodup → e.refCount = e.callbacks.length →
      (more.map (fun cb => MEvent.subscribe cb cb)).foldl (stepM throws) s =
        ⟨some ⟨e.callbacks ++ more, e.refCount + more.length, e.lastValue,
          e.closureLast, e.creatorErr⟩, s.opens, s.teardowns, s.log⟩ := by
  induction more with
  | nil =>
      rintro ⟨ent, o, td, lg⟩ e hs hlv hnd hrc
      simp only [MState.entry] at hs
      subst hs
      simp
  | cons c rest ih =>
      rintro ⟨ent, o, td, lg⟩ e hs hlv hnd hrc
      simp only [MState.entry] at hs
      subst hs
      have hc : c ∉ e.callbacks := by
        rcases List.nodup_append.mp hnd with ⟨-, -, hdisj⟩
        exact fun hc => hdisj hc (List.mem_cons_self c rest)
      have hstep : stepM throws ⟨some e, o, td, lg⟩ (.subscribe c c) =
          ⟨some ⟨e.callbacks ++ [c], e.refCount + 1, e.lastValue,
            e.closureLast, e.creatorErr⟩, o, td, lg⟩ := by
        simp [stepM, hlv, addCallback, hc]
      rw [List.map_cons, List.foldl_cons, hstep,
        ih _ ⟨e.callbacks ++ [c], e.refCount + 1, e.lastValue, e.closureLast, e.creatorErr⟩
          rfl hlv (by simpa [List.append_assoc] using hnd)
          (by simp [hrc])]
      simp [List.append_assoc]
      omega

/-- Calling each pending unsubscribe closure once, in any order, drains the
entry: exactly one teardown runs, at the last call, and the entry is
removed.  No channel is opened and nothing is delivered. -/
theorem foldl_unsubscribe_drains (throws : Nat → Bool) (order : List Nat) :
    ∀ (s : MState) (e : SubEntry), s.entry = some e →
      order.Perm e.callbacks → e.callbacks.Nodup →
      e.refCount = e.callbacks.length → order ≠ [] →
      (order.map MEvent.unsubscribe).foldl (stepM throws) s =
        ⟨none, s.opens, s.teardowns + 1, s.log⟩ := by
  induction order with
  | nil => intro _ _ _ _ _ _ hne; exact absurd rfl hne
  | cons a rest ih =>
      rintro ⟨ent, o, td, lg⟩ e hs hperm hnd hrc -
      simp only [MState.entry] at hs
      subst hs
      have ha : a ∈ e.callbacks := hperm.subset (List.mem_cons_self a rest)
      cases rest with
      | nil =>
          have hsing : e.callbacks = [a] := List.perm_singleton.mp hperm.symm
          have hz : e.refCount - 1 = 0 := by
            rw [hrc, hsing]
            simp
          simp [stepM, hz]
      | cons b rest' =>
          have hlen : 2 ≤ e.callbacks.length := by
            have := hperm.length_eq
            simp at this
            omega
          have hz : ¬ (e.refCount - 1 = 0) := by
            rw [hrc]
            omega
          have hstep : stepM throws ⟨some e, o, td, lg⟩ (.unsubscribe a) =
              ⟨some ⟨e.callbacks.erase a, e.refCount - 1, e.lastValue,
                e.closureLast, e.creatorErr⟩, o, td, lg⟩ := by
            simp [stepM, hz]
          have hperm' : (b :: rest').Perm (e.callbacks.erase a) :=
            (List.perm_cons a).mp (hperm.trans (List.perm_cons_erase ha))
          have hrc' : e.refCount - 1 = ((e.callbacks.erase a).length : Int) := by
            rw [List.length_erase_of_mem ha, hrc]
            have : 1 ≤ e.callbacks.length := List.length_pos.mpr (by
              intro hnil
              rw [hnil] at ha
              exact (List.not_mem_nil a) ha)
            omega
          rw [List.map_cons, List.foldl_cons, hstep,
            ih _ ⟨e.callbacks.erase a, e.refCount - 1, e.lastValue,
              e.closureLast, e.creatorErr⟩ rfl hperm' (hnd.erase a) hrc'
              (List.cons_ne_nil b rest')]

/-- Claim C1: at most one remote channel is live at any time for one
identity, over every event sequence; and for `N` observers subscribing
(distinct callbacks) and then each returned unsubscribe closure running
exactly once in any order, exactly one channel was opened, the teardown ran
exactly once, the entry is removed, and the next subscribe opens a
brand-new channel. -/
theorem at_most_one_channel_single_teardown (throws : Nat → Bool)
    (cbs order : List Nat) (hnd : cbs.Nodup) (hperm : order.Perm cbs)
    (hne : cbs ≠ []) (newCb newErr : Nat) :
    (∀ evs : List MEvent, (runM throws evs).opens ≤ (runM throws evs).teardowns + 1)
    ∧ (runM throws (subUnsubTrace cbs order)).opens = 1
    ∧ (runM throws (subUnsubTrace cbs order)).teardowns = 1
    ∧ (runM throws (subUnsubTrace cbs order)).entry = none
    ∧ (stepM throws (runM throws (subUnsubTrace cbs order))
        (.subscribe newCb newErr)).opens = 2
    ∧ ((stepM throws (runM throws (subUnsubTrace cbs order))
        (.subscribe newCb newErr)).entry).isSome = true := by
  have hbound : ∀ evs : List MEvent,
      (runM throws evs).opens ≤ (runM throws evs).teardowns + 1 := by
    intro evs
    have h := runM_chanInv throws evs
    rw [chanInv] at h
    split at h <;> omega
  have horder : order ≠ [] := by
    intro h0
    have := hperm.length_eq
    rw [h0] at this
    exact hne (List.length_eq_zero.mp this.symm)
  obtain ⟨c, cs, rfl⟩ : ∃ c cs, cbs = c :: cs := by
    cases cbs with
    | nil => exact absurd rfl hne
    | cons c cs => exact ⟨c, cs, rfl⟩
  have hfinal : runM throws (subUnsubTrace (c :: cs) order) = ⟨none, 1, 1, []⟩ := by
    rw [runM, subUnsubTrace, List.foldl_append, List.map_cons, List.foldl_cons,
      show stepM throws initM (.subscribe c c) =
        ⟨some ⟨[c], 1, none, none, c⟩, 1, 0, []⟩ from rfl,
      foldl_subscribe_grows throws cs ⟨some ⟨[c], 1, none, none, c⟩, 1, 0, []⟩
        ⟨[c], 1, none, none, c⟩ rfl rfl (by simpa using hnd) (by simp),
      foldl_unsubscribe_drains throws order _ ⟨[c] ++ cs, 1 + cs.length, none, none, c⟩
        rfl (by simpa using hperm) (by simpa using hnd) (by simp; omega) horder]
  exact ⟨hbound, by rw [hfinal], by rw [hfinal], by rw [hfinal],
    by rw [hfinal]; rfl, by rw [hfinal]; rfl⟩

/-- Witness for `at_most_one_channel_single_teardown`: two observers with
callbacks `0` and `1`, unsubscribing in the order `1, 0`, with a third
subscribe afterwards. -/
theorem at_most_one_channel_single_teardown_witness :
    (([0, 1] : List Nat).Nodup ∧ ([1, 0] : List Nat).Perm [0, 1]
      ∧ ([0, 1] : List Nat) ≠ [])
    ∧ ((∀ evs : List MEvent,
          (runM (fun _ => false) evs).opens ≤ (runM (fun _ => false) evs).teardowns + 1)
      ∧ (runM (fun _ => false) (subUnsubTrace [0, 1] [1, 0])).opens = 1
      ∧ (runM (fun _ => false) (subUnsubTrace [0, 1] [1, 0])).teardowns = 1
      ∧ (runM (fun _ => false) (subUnsubTrace [0, 1] [1, 0])).entry = none
      ∧ (stepM (fun _ => false) (runM (fun _ => false) (subUnsubTrace [0, 1] [1, 0]))
          (.subscribe 2 3)).opens = 2
      ∧ ((stepM (fun _ => false) (runM (fun _ => false) (subUnsubTrace [0, 1] [1, 0]))
          (.subscribe 2 3)).entry).isSome = true) :=
  ⟨⟨by decide, by decide, by decide⟩,
    at_most_one_channel_single_teardown (fun _ => false) [0, 1] [1, 0]
      (by decide) (by decide) (by decide) 2 3⟩
